import Mathlib

/-!
Verification of the RAG pipeline core of the rag-search repository.

Text is modelled as `List Char`; floating-point relevance scores and cosine
similarities as `ℚ`.  Calls to external services (the two Azure search
indexes, the chat-completion endpoint, the Chroma cache backend) are modelled
by their outcomes, passed as explicit `Except`/`Option` parameters: `.ok v`
for a call that returned `v`, `.error e` for a call that raised an exception
whose text is `e`.  Python's `None` / `[]` / string return values of the
pipeline are modelled by explicit inductive result types.
-/

instance {ε α : Type} [DecidableEq ε] [DecidableEq α] : DecidableEq (Except ε α) := fun x y =>
  match x, y with
  | Except.error a, Except.error b =>
    if h : a = b then isTrue (by subst h; rfl) else isFalse (by intro hh; cases hh; exact h rfl)
  | Except.error _, Except.ok _ => isFalse (by intro hh; cases hh)
  | Except.ok _, Except.error _ => isFalse (by intro hh; cases hh)
  | Except.ok a, Except.ok b =>
    if h : a = b then isTrue (by subst h; rfl) else isFalse (by intro hh; cases hh; exact h rfl)

/-- Model of Python `str.strip()` (restricted to ASCII whitespace): drop
leading and trailing whitespace characters. -/
def pythonStrip (l : List Char) : List Char :=
  ((l.dropWhile Char.isWhitespace).reverse.dropWhile Char.isWhitespace).reverse

/-- Helper for `countWords`: scans the characters, counting the starts of
maximal non-whitespace runs; the flag records whether the scanner is
currently inside a word. -/
def countWordsAux : Bool → List Char → Nat
  | _, [] => 0
  | inWord, c :: cs =>
    if c.isWhitespace then countWordsAux false cs
    else (if inWord then 0 else 1) + countWordsAux true cs

/-- Model of Python `len(text.split())` (restricted to ASCII whitespace):
the number of maximal non-whitespace runs of the text. -/
def countWords (l : List Char) : Nat := countWordsAux false l

/-- One processed search hit, as built by `_process_search_results`
(src/services/qa_engine.py lines 124-130): the dict
`{"score": result["@search.score"], "content": result[content_field]}`. -/
structure Passage where
  score : ℚ
  content : List Char
deriving DecidableEq

/-- Descending-score comparison used as the sort key of
`sorted(combined_results, key=lambda x: x["score"], reverse=True)`
(src/services/qa_engine.py lines 197-199). -/
def scoreGE (a b : Passage) : Prop := b.score ≤ a.score

instance : DecidableRel scoreGE := fun a b => inferInstanceAs (Decidable (b.score ≤ a.score))

/-- Model of `sorted(combined_results, key=lambda x: x["score"], reverse=True)`
(src/services/qa_engine.py lines 197-199).  Python's `sorted` is a stable sort;
insertion sort with the descending relation is stable in the same sense. -/
def rag_sort (l : List Passage) : List Passage := List.insertionSort scoreGE l

/-- Model of the rank-filter-truncate step of `rag_pipeline`
(src/services/qa_engine.py lines 197-201):
`top_results = [res for res in sorted_results if res["score"] >= 0.5][:3]`. -/
def rag_fuse (l : List Passage) : List Passage :=
  ((rag_sort l).filter (fun p => (0.5 : ℚ) ≤ p.score)).take 3

/-- Model of the two sequential index calls of `rag_pipeline`
(src/services/qa_engine.py lines 186-195).  Both `search` calls and the
subsequent `_process_search_results` processing sit inside the single `try`
block of `rag_pipeline`, so an exception raised by the first call (or, after
it succeeded, by the second) aborts the whole step; only when both succeed is
the combined list `processed(text) ++ processed(pdf)` produced, exactly as
`combined_results = _process_search_results(text_results, "content")` followed
by `combined_results.extend(_process_search_results(pdf_results, "chunk"))`. -/
def searchStep (textResults pdfResults : Except (List Char) (List Passage)) :
    Except (List Char) (List Passage) :=
  match textResults with
  | Except.error e => Except.error e
  | Except.ok t =>
    match pdfResults with
    | Except.error e => Except.error e
    | Except.ok p => Except.ok (t ++ p)

/-- Helper for `fix_line_breaks`: model of
`re.sub(r"(?<!\n)\n(?!\n)", " ", text)` (src/services/qa_engine.py line 121).
`prev` is the character of the original text just before the current
position (`none` at the start); a newline is replaced by a space exactly when
it is neither preceded nor followed by another newline in the original text. -/
def flbAux : Option Char → List Char → List Char
  | _, [] => []
  | prev, c :: cs =>
    (if c = '\n' ∧ prev ≠ some '\n' ∧ cs.head? ≠ some '\n' then ' ' else c) :: flbAux (some c) cs

/-- Model of `fix_line_breaks` (src/services/qa_engine.py lines 118-121):
`re.sub(r"(?<!\n)\n(?!\n)", " ", text).strip()`.  The `isinstance` guard is
not modelled: inputs are always strings here. -/
def fix_line_breaks (l : List Char) : List Char := pythonStrip (flbAux none l)

/-- Helper for `assembleContext`: the running excerpt counter `i` starts at 1. -/
def assembleContextAux : Nat → List (List Char) → List Char
  | _, [] => []
  | i, c :: cs =>
    ("--- Excerpt ".toList ++ (Nat.repr i).toList ++ " ---\n".toList ++ c ++ "\n\n".toList)
      ++ assembleContextAux (i + 1) cs

/-- Model of the context-assembly loop of `rag_pipeline`
(src/services/qa_engine.py lines 207-210):
`context_for_llm += f"--- Excerpt \x7bi\x7d ---\n\x7bcleaned_content\x7d\n\n"`,
applied to the already-cleaned contents. -/
def assembleContext (contents : List (List Char)) : List Char := assembleContextAux 1 contents

/-- Caller-visible outcome of `get_llm_answer`: Python `None` is
`.noContext`, the Python empty list `[]` is `.emptyList`, and a returned
string `s` is `.text s`. -/
inductive LLMOutcome where
  | noContext
  | emptyList
  | text (s : List Char)
deriving DecidableEq

/-- Sentinel token the prompt instructs the model to emit when the context is
insufficient (src/services/qa_engine.py line 144). -/
def noAnswerSentinel : List Char := "NO_ANSWER_FOUND".toList

/-- Model of `get_llm_answer` (src/services/qa_engine.py lines 133-171).
The chat-completion call is modelled by its outcome `llmResponse`; the second
component of the result counts how many times that call was made.  Following
the source: an empty/whitespace-only context returns `None` before any call;
a raised exception is caught and converted to the string
`"Error generating answer: " ++ e`; otherwise the response is stripped and
mapped to `[]` when it contains the sentinel as a substring or is empty. -/
def get_llm_answer (context : List Char) (llmResponse : Except (List Char) (List Char)) :
    LLMOutcome × Nat :=
  if pythonStrip context = [] then (LLMOutcome.noContext, 0)
  else
    match llmResponse with
    | Except.error e => (LLMOutcome.text ("Error generating answer: ".toList ++ e), 1)
    | Except.ok raw =>
      let answer := pythonStrip raw
      if noAnswerSentinel <:+: answer ∨ answer = [] then (LLMOutcome.emptyList, 1)
      else (LLMOutcome.text answer, 1)

/-- Final result of `rag_pipeline`: the Python empty list `[]` is
`.emptyList`, a returned answer string is `.text s`. -/
inductive RagResult where
  | emptyList
  | text (s : List Char)
deriving DecidableEq

/-- Model of `rag_pipeline` (src/services/qa_engine.py lines 174-222).  The
two index searches are modelled by their outcomes; `Except.error` of the
whole function models the `HTTPException(status_code=500, detail=...)` raised
by the final `except` clause.  The second component of a successful result
counts the chat-completion invocations made by `get_llm_answer`. -/
def rag_pipeline (textResults pdfResults : Except (List Char) (List Passage))
    (llmResponse : Except (List Char) (List Char)) : Except (List Char) (RagResult × Nat) :=
  match searchStep textResults pdfResults with
  | Except.error e => Except.error ("Internal error: ".toList ++ e)
  | Except.ok combined =>
    let top := rag_fuse combined
    if top = [] then Except.ok (RagResult.emptyList, 0)
    else
      match get_llm_answer (assembleContext (top.map fun p => fix_line_breaks p.content))
          llmResponse with
      | (LLMOutcome.noContext, n) => Except.ok (RagResult.emptyList, n)
      | (LLMOutcome.emptyList, n) => Except.ok (RagResult.emptyList, n)
      | (LLMOutcome.text s, n) => Except.ok (RagResult.text s, n)

/-- Model of `add_faq` (src/test2.py lines 28-46).  The Chroma collection is
modelled as an association list in insertion order, keyed by the question
string (the source uses `ids=[question]`).  `faq_collection.get(ids=[question])`
finds an existing id exactly when the key is present; in that case the
function returns `False` and the store is unchanged, otherwise the new entry
is appended and the function returns `True`. -/
def add_faq (store : List (String × String)) (question answer : String) :
    Bool × List (String × String) :=
  if question ∈ store.map Prod.fst then (false, store)
  else (true, store ++ [(question, answer)])

/-- Folding a whole sequence of `add_faq` insertions over a store,
in order. -/
def add_faq_batch (store : List (String × String)) (items : List (String × String)) :
    List (String × String) :=
  items.foldl (fun s qa => (add_faq s qa.1 qa.2).2) store

/-- Default threshold table of `get_threshold_by_length` (src/test2.py
lines 50-55), in dict insertion order: `(0, 5) ↦ 0.75`, `(6, 15) ↦ 0.80`,
`(16, 1000) ↦ 0.85`. -/
def default_thresholds : List (Nat × Nat × ℚ) := [(0, 5, 0.75), (6, 15, 0.80), (16, 1000, 0.85)]

/-- The lookup loop of `get_threshold_by_length` (src/test2.py lines 56-60):
the first bucket with `min_len <= length <= max_len` wins, and the fall-through
return value is `0.65`. -/
def lookup_threshold : List (Nat × Nat × ℚ) → Nat → ℚ
  | [], _ => 0.65
  | (mn, mx, thr) :: rest, n => if mn ≤ n ∧ n ≤ mx then thr else lookup_threshold rest n

/-- Model of `get_threshold_by_length` (src/test2.py lines 49-60) with the
default table: the threshold bucket selected by `len(text.split())`. -/
def get_threshold_by_length (text : List Char) : ℚ :=
  lookup_threshold default_thresholds (countWords text)

/-- The effective similarity threshold computed inside `find_similar_faq`
(src/test2.py lines 85-87): `threshold = (thr_user + thr_db) / 2`. -/
def faqThreshold (user_question matched_question : List Char) : ℚ :=
  (get_threshold_by_length user_question + get_threshold_by_length matched_question) / 2

/-- Model of `find_similar_faq` (src/test2.py lines 63-110).  The embedding
model and the Chroma nearest-neighbour query are external: they are modelled
by `queryResult`, which is `none` when the collection returned no candidate
(or the backend raised, which the source also maps to `None`), and otherwise
carries the matched question, its stored answer, and the cosine similarity
`util.cos_sim(query_emb, matched_emb).item()` between the two embeddings.
Following the source: a similarity outside `[-1, 1]` is rejected, then the
answer is returned exactly when `similarity >= threshold`. -/
def find_similar_faq (user_question : List Char)
    (queryResult : Option (List Char × String × ℚ)) : Option String :=
  match queryResult with
  | none => none
  | some (matched_question, answer, similarity) =>
    if similarity < -1 ∨ 1 < similarity then none
    else if faqThreshold user_question matched_question ≤ similarity then some answer
    else none

/-- One leftmost match of the regex `\[doc\d+\]` (src/services/utils.py
line 5) at the head of the list: the literal characters `[doc`, then a
non-empty greedy run of digits, then `]`.  Returns the remainder after the
match, or `none` when the head does not match.  (`\d` is modelled as an ASCII
digit.)  Greediness is faithful: the only way `\d+\]` can match is to consume
the whole maximal digit run and then find `]`, since a shorter run is
followed by a digit, not `]`. -/
def matchMarker : List Char → Option (List Char)
  | '[' :: 'd' :: 'o' :: 'c' :: rest =>
    match rest.takeWhile Char.isDigit, rest.dropWhile Char.isDigit with
    | [], _ => none
    | _ :: _, ']' :: rest2 => some rest2
    | _ :: _, _ => none
  | _ => none

/-- Fuelled scan of `re.sub(r"\[doc\d+\]", "", text)`: at each position, if a
marker matches, it is removed and scanning resumes after it (re.sub matches
are non-overlapping, left to right); otherwise the character is kept and
scanning moves one position right.  Each step consumes one fuel and at least
one character, so fuel `l.length` (supplied by `remove_citation_markers`)
never runs out before the list does. -/
def removeCitationAux : Nat → List Char → List Char
  | 0, l => l
  | _ + 1, [] => []
  | n + 1, c :: cs =>
    match matchMarker (c :: cs) with
    | some rest => removeCitationAux n rest
    | none => c :: removeCitationAux n cs

/-- Model of `remove_citation_markers` (src/services/utils.py lines 4-5):
`re.sub(r"\[doc\d+\]", "", text)`. -/
def remove_citation_markers (l : List Char) : List Char := removeCitationAux l.length l

/-- Whether the regex `\[doc\d+\]` matches anywhere in the text. -/
def hasMarker : List Char → Bool
  | [] => false
  | c :: cs => (matchMarker (c :: cs)).isSome || hasMarker cs

/-- Twenty words of text, for exercising the 16-1000 threshold bucket. -/
def twentyWords : List Char := (List.replicate 20 "word ".toList).flatten

/-- A 1001-word text, beyond every configured threshold bucket. -/
def bigWords : List Char := (List.replicate 1001 "w ".toList).flatten

instance : IsTotal Passage scoreGE := ⟨fun a b => le_total b.score a.score⟩

instance : IsTrans Passage scoreGE := ⟨fun _ _ _ hab hbc => le_trans hbc hab⟩

theorem rag_fuse_sublist_sort (l : List Passage) : List.Sublist (rag_fuse l) (rag_sort l) :=
  (List.take_sublist _ _).trans (List.filter_sublist _)

theorem rag_fuse_sorted (l : List Passage) : (rag_fuse l).Sorted scoreGE :=
  List.Pairwise.sublist (rag_fuse_sublist_sort l) (List.sorted_insertionSort scoreGE l)

theorem rag_fuse_mem_score {l : List Passage} {p : Passage} (hp : p ∈ rag_fuse l) :
    (0.5 : ℚ) ≤ p.score := by
  have h1 : p ∈ (rag_sort l).filter (fun p => (0.5 : ℚ) ≤ p.score) :=
    (List.take_sublist _ _).subset hp
  simpa using List.of_mem_filter h1

theorem rag_fuse_mem {l : List Passage} {p : Passage} (hp : p ∈ rag_fuse l) : p ∈ l :=
  (List.perm_insertionSort scoreGE l).subset ((rag_fuse_sublist_sort l).subset hp)

theorem rag_fuse_length (l : List Passage) : (rag_fuse l).length ≤ 3 := by
  simp only [rag_fuse, List.length_take]
  exact Nat.min_le_left _ _

theorem rag_fuse_eq_nil {l : List Passage} (h : ∀ p ∈ l, p.score < 0.5) : rag_fuse l = [] := by
  have hf : (rag_sort l).filter (fun p => (0.5 : ℚ) ≤ p.score) = [] := by
    apply List.filter_eq_nil_iff.mpr
    intro a ha
    have ha' : a ∈ l := (List.perm_insertionSort scoreGE l).subset ha
    simpa using not_le.mpr (h a ha')
  simp [rag_fuse, hf]

theorem within_reverse {p l : List Char} (h : p <:+: l) : p.reverse <:+: l.reverse := by
  obtain ⟨s, t, hst⟩ := h
  exact ⟨t.reverse, s.reverse, by rw [← hst]; simp⟩

theorem within_dropWhile {p l : List Char} (hne : p ≠ [])
    (hnw : ∀ c ∈ p, ¬ c.isWhitespace) (h : p <:+: l) :
    p <:+: l.dropWhile Char.isWhitespace := by
  induction l with
  | nil =>
    have : p = [] := List.sublist_nil.mp h.sublist
    exact absurd this hne
  | cons c cs ih =>
    by_cases hw : c.isWhitespace
    · rw [List.dropWhile_cons, if_pos hw]
      apply ih
      obtain ⟨s, t, hst⟩ := h
      cases s with
      | nil =>
        cases p with
        | nil => exact absurd rfl hne
        | cons a as =>
          simp only [List.nil_append, List.cons_append, List.cons.injEq] at hst
          exact absurd (hst.1 ▸ hw) (hnw a (by simp))
      | cons b s' =>
        simp only [List.cons_append, List.cons.injEq] at hst
        exact ⟨s', t, hst.2⟩
    · rw [List.dropWhile_cons, if_neg hw]
      exact h

theorem strip_of_allWhitespace {l : List Char} (h : ∀ c ∈ l, c.isWhitespace) :
    pythonStrip l = [] := by
  have h1 : l.dropWhile Char.isWhitespace = [] := List.dropWhile_eq_nil_iff.mpr h
  simp [pythonStrip, h1]

theorem within_strip {p l : List Char} (hne : p ≠ [])
    (hnw : ∀ c ∈ p, ¬ c.isWhitespace) (h : p <:+: l) : p <:+: pythonStrip l := by
  have h1 := within_dropWhile hne hnw h
  have h2 := within_reverse h1
  have h3 := within_dropWhile (by simpa using hne) (by simpa using hnw) h2
  have h4 := within_reverse h3
  simpa [pythonStrip] using h4

theorem flbAux_length : ∀ (l : List Char) (prev : Option Char),
    (flbAux prev l).length = l.length := by
  intro l
  induction l with
  | nil => intro prev; rfl
  | cons c cs ih => intro prev; simp [flbAux, ih]

theorem flbAux_getElem? : ∀ (l : List Char) (prev : Option Char) (i : Nat),
    (flbAux prev l)[i]? =
      if l[i]? = some '\n' ∧ (if i = 0 then prev ≠ some '\n' else l[i - 1]? ≠ some '\n')
          ∧ l[i + 1]? ≠ some '\n'
      then some ' ' else l[i]? := by
  intro l
  induction l with
  | nil => intro prev i; simp [flbAux]
  | cons c cs ih =>
    intro prev i
    cases i with
    | zero =>
      simp only [flbAux, List.getElem?_cons_zero, List.getElem?_cons_succ, Nat.zero_sub,
        if_pos rfl]
      by_cases h : c = '\n' ∧ prev ≠ some '\n' ∧ cs.head? ≠ some '\n'
      · rw [if_pos h, if_pos]
        refine ⟨by simp [h.1], h.2.1, ?_⟩
        rw [← List.head?_eq_getElem?]
        exact h.2.2
      · rw [if_neg h, if_neg]
        intro hc
        apply h
        refine ⟨by simpa using hc.1, hc.2.1, ?_⟩
        rw [List.head?_eq_getElem?]
        exact hc.2.2
    | succ j =>
      simp only [flbAux, List.getElem?_cons_succ]
      rw [ih (some c) j]
      cases j with
      | zero => simp
      | succ k => simp [Nat.succ_sub_one]

theorem removeCitationAux_of_noMarker :
    ∀ (n : Nat) (l : List Char), hasMarker l = false → removeCitationAux n l = l := by
  intro n
  induction n with
  | zero => intro l _; rfl
  | succ m ih =>
    intro l h
    cases l with
    | nil => rfl
    | cons c cs =>
      have h1 : matchMarker (c :: cs) = none := by
        cases hm : matchMarker (c :: cs) with
        | none => rfl
        | some r => rw [hasMarker, hm] at h; simp at h
      have h2 : hasMarker cs = false := by
        rw [hasMarker, h1] at h
        simpa using h
      simp [removeCitationAux, h1, ih cs h2]

theorem remove_citation_markers_of_noMarker {l : List Char} (h : hasMarker l = false) :
    remove_citation_markers l = l :=
  removeCitationAux_of_noMarker _ _ h

theorem add_faq_keys_nodup {store : List (String × String)}
    (h : (store.map Prod.fst).Nodup) (q a : String) :
    (((add_faq store q a).2).map Prod.fst).Nodup := by
  by_cases hq : q ∈ store.map Prod.fst
  · simpa [add_faq, hq] using h
  · simp [add_faq, hq, List.nodup_append, h]

theorem add_faq_batch_keys_nodup :
    ∀ (items : List (String × String)) (store : List (String × String)),
      (store.map Prod.fst).Nodup → ((add_faq_batch store items).map Prod.fst).Nodup := by
  intro items
  induction items with
  | nil => intro store h; simpa [add_faq_batch] using h
  | cons qa rest ih =>
    intro store h
    rw [add_faq_batch, List.foldl_cons]
    exact ih _ (add_faq_keys_nodup h qa.1 qa.2)

/-- Claim C1: the fusion step of `rag_pipeline` sorts the combined passages in
descending order of raw relevance score, keeps exactly those with score at
least 0.5, and truncates to the first 3; in particular, for passages scored
0.9 (index A), 0.3 (index B), 0.7 (index A), 0.6 (index B) the surviving
context is exactly the passages scored 0.9, 0.7, 0.6 in that order,
regardless of which index each came from. -/
theorem C1_fusion_rank_filter_truncate (l : List Passage) :
    (rag_fuse l).Sorted scoreGE
    ∧ (∀ p ∈ rag_fuse l, (0.5 : ℚ) ≤ p.score)
    ∧ (rag_fuse l).length ≤ 3
    ∧ (∀ p ∈ rag_fuse l, p ∈ l)
    ∧ rag_fuse [⟨0.9, "pA1".toList⟩, ⟨0.3, "pB1".toList⟩, ⟨0.7, "pA2".toList⟩,
          ⟨0.6, "pB2".toList⟩]
        = [⟨0.9, "pA1".toList⟩, ⟨0.7, "pA2".toList⟩, ⟨0.6, "pB2".toList⟩] := by
  refine ⟨rag_fuse_sorted l, fun p hp => rag_fuse_mem_score hp, rag_fuse_length l,
    fun p hp => rag_fuse_mem hp, ?_⟩
  norm_num [rag_fuse, rag_sort, List.insertionSort, List.orderedInsert, scoreGE]

/-- Witness for C1 at the concrete four-passage input. -/
theorem C1_witness :
    (0.5 : ℚ) ≤ (Passage.mk 0.9 "pA1".toList).score
    ∧ Passage.mk 0.9 "pA1".toList
        ∈ [Passage.mk 0.9 "pA1".toList, Passage.mk 0.3 "pB1".toList,
            Passage.mk 0.7 "pA2".toList, Passage.mk 0.6 "pB2".toList] := by
  have hmem : Passage.mk 0.9 "pA1".toList
      ∈ rag_fuse [Passage.mk 0.9 "pA1".toList, Passage.mk 0.3 "pB1".toList,
          Passage.mk 0.7 "pA2".toList, Passage.mk 0.6 "pB2".toList] := by
    rw [(C1_fusion_rank_filter_truncate []).2.2.2.2]
    simp
  exact ⟨(C1_fusion_rank_filter_truncate _).2.1 _ hmem,
    (C1_fusion_rank_filter_truncate _).2.2.2.1 _ hmem⟩

/-- Claim C2 counterexample: when the text index raises and the pdf index
returns two good passages, `rag_pipeline` propagates the failure (as the
HTTPException branch) instead of answering from the surviving index; the
result differs from what the surviving index alone would have produced. -/
theorem C2_counterexample :
    rag_pipeline (Except.error "boom".toList)
        (Except.ok [Passage.mk 0.9 "alpha".toList, Passage.mk 0.7 "beta".toList])
        (Except.ok "An answer.".toList)
      = Except.error "Internal error: boom".toList
    ∧ rag_pipeline (Except.ok [])
        (Except.ok [Passage.mk 0.9 "alpha".toList, Passage.mk 0.7 "beta".toList])
        (Except.ok "An answer.".toList)
      = Except.ok (RagResult.text "An answer.".toList, 1)
    ∧ Except.error "Internal error: boom".toList
        ≠ (Except.ok (RagResult.text "An answer.".toList, 1) : Except (List Char) (RagResult × Nat)) := by
  have hfuse : rag_fuse [Passage.mk 0.9 "alpha".toList, Passage.mk 0.7 "beta".toList]
      = [Passage.mk 0.9 "alpha".toList, Passage.mk 0.7 "beta".toList] := by
    norm_num [rag_fuse, rag_sort, List.insertionSort, List.orderedInsert, scoreGE]
  refine ⟨by decide, ?_, by simp⟩
  simp only [rag_pipeline, searchStep, List.nil_append]
  rw [hfuse]
  decide

/-- Claim C2 amended: in `rag_pipeline` an exception from either index search
aborts the whole retrieval and propagates to the caller (wrapped as the
`Internal error:` HTTPException) — there is no partial-result tolerance and
no separate all-indexes-failed `RetrievalError`; only when both searches
succeed is the fused input the concatenation of both indexes' results. -/
theorem C2_error_propagation (tres pres : Except (List Char) (List Passage))
    (llm : Except (List Char) (List Char)) :
    (∀ e, tres = Except.error e →
      rag_pipeline tres pres llm = Except.error ("Internal error: ".toList ++ e))
    ∧ (∀ t e, tres = Except.ok t → pres = Except.error e →
      rag_pipeline tres pres llm = Except.error ("Internal error: ".toList ++ e))
    ∧ (∀ t p, tres = Except.ok t → pres = Except.ok p →
      searchStep tres pres = Except.ok (t ++ p)) := by
  refine ⟨?_, ?_, ?_⟩
  · intro e he
    subst he
    simp [rag_pipeline, searchStep]
  · intro t e ht he
    subst ht
    subst he
    simp [rag_pipeline, searchStep]
  · intro t p ht hp
    subst ht
    subst hp
    simp [searchStep]

/-- Witness for C2's amended theorem at concrete failing inputs. -/
theorem C2_witness :
    rag_pipeline (Except.error "conn reset".toList) (Except.ok [])
        (Except.ok "unused".toList)
      = Except.error ("Internal error: ".toList ++ "conn reset".toList)
    ∧ rag_pipeline (Except.ok []) (Except.error "timeout".toList)
        (Except.ok "unused".toList)
      = Except.error ("Internal error: ".toList ++ "timeout".toList) :=
  ⟨(C2_error_propagation _ _ _).1 _ rfl, (C2_error_propagation _ _ _).2.1 [] _ rfl rfl⟩

/-- Claim C3: when every retrieved passage scores below the 0.5 threshold,
`rag_pipeline` returns the empty (NoAnswer) result with zero chat-completion
invocations, for every possible behavior of the language model. -/
theorem C3_below_threshold_no_llm (tres pres : Except (List Char) (List Passage))
    (combined : List Passage) (llm : Except (List Char) (List Char))
    (hok : searchStep tres pres = Except.ok combined)
    (hlow : ∀ p ∈ combined, p.score < 0.5) :
    rag_pipeline tres pres llm = Except.ok (RagResult.emptyList, 0) := by
  have hnil := rag_fuse_eq_nil hlow
  simp [rag_pipeline, hok, hnil]

/-- Witness for C3 with one passage scored 0.3. -/
theorem C3_witness :
    rag_pipeline (Except.ok [Passage.mk 0.3 "low".toList]) (Except.ok [])
        (Except.ok "ignored".toList)
      = Except.ok (RagResult.emptyList, 0) := by
  apply C3_below_threshold_no_llm (Except.ok [Passage.mk 0.3 "low".toList]) (Except.ok [])
    [Passage.mk 0.3 "low".toList] (Except.ok "ignored".toList) rfl
  intro p hp
  simp only [List.mem_singleton] at hp
  subst hp
  norm_num

/-- Claim C4: for every raw model output containing the exact sentinel
`NO_ANSWER_FOUND` as a substring, or empty/whitespace-only, the
caller-visible result of `get_llm_answer` is the empty (NoAnswer) result,
regardless of surrounding text. -/
theorem C4_sentinel_noanswer (ctx raw : List Char) (hctx : pythonStrip ctx ≠ [])
    (h : noAnswerSentinel <:+: raw ∨ ∀ c ∈ raw, c.isWhitespace) :
    (get_llm_answer ctx (Except.ok raw)).1 = LLMOutcome.emptyList := by
  rcases h with h | h
  · have hs : noAnswerSentinel <:+: pythonStrip raw :=
      within_strip (by decide) (by decide) h
    simp [get_llm_answer, hctx, hs]
  · have hz : pythonStrip raw = [] := strip_of_allWhitespace h
    simp [get_llm_answer, hctx, hz]

/-- Witness for C4: sentinel embedded in surrounding text, and a
whitespace-only output. -/
theorem C4_witness :
    (get_llm_answer "some context".toList
        (Except.ok "bla NO_ANSWER_FOUND bla".toList)).1 = LLMOutcome.emptyList
    ∧ (get_llm_answer "some context".toList (Except.ok "  \n ".toList)).1
        = LLMOutcome.emptyList :=
  ⟨C4_sentinel_noanswer _ _ (by decide) (Or.inl (by decide)),
    C4_sentinel_noanswer _ _ (by decide) (Or.inr (by decide))⟩

/-- Claim C5 counterexample: when the chat-completion call raises,
`get_llm_answer` catches the exception and returns the plain string
`Error generating answer: ...` — the very same value a successful model call
returning that text would produce — and `rag_pipeline` passes it to the
caller as a successful answer; no distinguishable GenerationError reaches
the caller. -/
theorem C5_counterexample :
    (get_llm_answer "some context".toList (Except.error "boom".toList)).1
        = LLMOutcome.text "Error generating answer: boom".toList
    ∧ (get_llm_answer "some context".toList
          (Except.ok "Error generating answer: boom".toList)).1
        = LLMOutcome.text "Error generating answer: boom".toList
    ∧ rag_pipeline (Except.ok [Passage.mk 0.9 "alpha".toList]) (Except.ok [])
          (Except.error "boom".toList)
        = Except.ok (RagResult.text "Error generating answer: boom".toList, 1) := by
  have hfuse : rag_fuse [Passage.mk 0.9 "alpha".toList] = [Passage.mk 0.9 "alpha".toList] := by
    norm_num [rag_fuse, rag_sort, List.insertionSort, List.orderedInsert, scoreGE]
  refine ⟨by decide, by decide, ?_⟩
  simp only [rag_pipeline, searchStep, List.append_nil]
  rw [hfuse]
  decide

/-- Claim C5 amended: when the chat-completion call raises, `get_llm_answer`
does not downgrade the failure to the NoAnswer result, but neither does it
surface a typed GenerationError: it catches the exception and returns the
string `Error generating answer: <e>` as an ordinary answer value. -/
theorem C5_error_as_text (ctx e : List Char) (hctx : pythonStrip ctx ≠ []) :
    (get_llm_answer ctx (Except.error e)).1
        = LLMOutcome.text ("Error generating answer: ".toList ++ e)
    ∧ (get_llm_answer ctx (Except.error e)).1 ≠ LLMOutcome.emptyList
    ∧ (get_llm_answer ctx (Except.error e)).1 ≠ LLMOutcome.noContext := by
  have h1 : (get_llm_answer ctx (Except.error e)).1
      = LLMOutcome.text ("Error generating answer: ".toList ++ e) := by
    simp [get_llm_answer, hctx]
  refine ⟨h1, ?_, ?_⟩
  · rw [h1]; simp
  · rw [h1]; simp

/-- Witness for C5's amended theorem at a concrete exception. -/
theorem C5_witness :
    (get_llm_answer "ctx ok".toList (Except.error "rate limit".toList)).1
      = LLMOutcome.text ("Error generating answer: ".toList ++ "rate limit".toList) :=
  (C5_error_as_text _ _ (by decide)).1

/-- Claim C6: the cache gate `find_similar_faq` returns the cached answer
exactly when the cosine similarity of the nearest stored entry reaches the
length-adaptive threshold computed for that lookup, and no answer when it is
below; a genuine cosine similarity lies in `[-1, 1]`, so the source's sanity
rejection of out-of-range values never fires.  The function is a pure
function of the cache lookup result: it makes no retrieval (fusion) call and
no language-model call. -/
theorem C6_cache_gate (uq mq : List Char) (ans : String) (sim : ℚ)
    (h1 : -1 ≤ sim) (h2 : sim ≤ 1) :
    (faqThreshold uq mq ≤ sim → find_similar_faq uq (some (mq, ans, sim)) = some ans)
    ∧ (sim < faqThreshold uq mq → find_similar_faq uq (some (mq, ans, sim)) = none) := by
  have hb : ¬ (sim < -1 ∨ 1 < sim) := by
    push_neg
    exact ⟨h1, h2⟩
  constructor
  · intro h
    simp [find_similar_faq, hb, h]
  · intro h
    simp [find_similar_faq, hb, not_le.mpr h]

/-- Witness for C6: similarity 0.96 against a threshold of 0.75. -/
theorem C6_witness :
    find_similar_faq "What is RAG".toList
        (some ("RAG explained".toList, "cached answer", 0.96)) = some "cached answer" := by
  apply (C6_cache_gate "What is RAG".toList "RAG explained".toList "cached answer" 0.96
    (by norm_num) (by norm_num)).1
  have hu : countWords "What is RAG".toList = 3 := by decide
  have hm : countWords "RAG explained".toList = 2 := by decide
  simp only [faqThreshold, get_threshold_by_length]
  rw [hu, hm]
  norm_num [lookup_threshold, default_thresholds]

/-- Claim C7: `add_faq` on an already-present question string returns `False`
and leaves the store unchanged, and any sequence of insertions preserves the
at-most-one-entry-per-question invariant (no duplicate keys ever appear). -/
theorem C7_cache_insert_invariant (store : List (String × String)) (q a : String)
    (items : List (String × String)) :
    (q ∈ store.map Prod.fst → add_faq store q a = (false, store))
    ∧ ((store.map Prod.fst).Nodup → ((add_faq_batch store items).map Prod.fst).Nodup) := by
  constructor
  · intro hq
    simp [add_faq, hq]
  · intro h
    exact add_faq_batch_keys_nodup items store h

/-- Witness for C7: duplicate insert is a no-op returning false, and a batch
with a repeated question keeps the keys duplicate-free. -/
theorem C7_witness :
    add_faq [("q1", "a1")] "q1" "a2" = (false, [("q1", "a1")])
    ∧ ((add_faq_batch [("q1", "a1")] [("q1", "a2"), ("q2", "b")]).map Prod.fst).Nodup :=
  ⟨(C7_cache_insert_invariant [("q1", "a1")] "q1" "a2" []).1 (by decide),
    (C7_cache_insert_invariant [("q1", "a1")] "q1" "a2" [("q1", "a2"), ("q2", "b")]).2
      (by decide)⟩

/-- Claim C8 counterexample: `remove_citation_markers` is not idempotent —
removing a marker can splice a new marker together, as in `[doc[doc1]1]`,
which one application turns into `[doc1]` and a second application erases. -/
theorem C8_counterexample :
    remove_citation_markers (remove_citation_markers "[doc[doc1]1]".toList)
      ≠ remove_citation_markers "[doc[doc1]1]".toList := by decide

/-- Claim C8 amended: the citation strip is idempotent on every string whose
once-stripped result contains no further occurrence of the `[docN]` pattern
(removal can otherwise splice a new marker together, so full idempotence
fails). -/
theorem C8_idempotent_when_clean (s : List Char)
    (h : hasMarker (remove_citation_markers s) = false) :
    remove_citation_markers (remove_citation_markers s) = remove_citation_markers s :=
  remove_citation_markers_of_noMarker h

/-- Witness for C8's amended theorem on an ordinary marker-bearing string. -/
theorem C8_witness :
    hasMarker (remove_citation_markers "The answer is X [doc1].".toList) = false
    ∧ remove_citation_markers (remove_citation_markers "The answer is X [doc1].".toList)
        = remove_citation_markers "The answer is X [doc1].".toList :=
  ⟨by decide, C8_idempotent_when_clean _ (by decide)⟩

/-- Claim C9 counterexample: `fix_line_breaks` does not leave the remaining
characters unchanged — besides replacing the spurious newline, it also strips
leading and trailing whitespace, so ` a\nb ` becomes `a b`, not ` a b `. -/
theorem C9_counterexample :
    fix_line_breaks " a\nb ".toList = "a b".toList
    ∧ "a b".toList ≠ " a b ".toList := by decide

/-- Claim C9 amended: `fix_line_breaks` replaces each spurious single newline
(one neither preceded nor followed by another newline) with a space, leaves
every other position — in particular double line breaks — unchanged, and then
strips leading and trailing whitespace from the result. -/
theorem C9_linebreaks (l : List Char) :
    fix_line_breaks l = pythonStrip (flbAux none l)
    ∧ (flbAux none l).length = l.length
    ∧ ∀ i : Nat, (flbAux none l)[i]? =
        if l[i]? = some '\n' ∧ (i = 0 ∨ l[i - 1]? ≠ some '\n') ∧ l[i + 1]? ≠ some '\n'
        then some ' ' else l[i]? := by
  refine ⟨rfl, flbAux_length l none, ?_⟩
  intro i
  rw [flbAux_getElem? l none i]
  by_cases hi : i = 0
  · subst hi
    simp
  · simp [hi]

/-- Claim C10: the effective cache-gate threshold is the arithmetic mean of
`get_threshold_by_length` on the incoming and the matched question, where the
buckets map 0-5 words to 0.75, 6-15 to 0.80, 16-1000 to 0.85, and more than
1000 words falls through to 0.65 — lower than every configured bucket. -/
theorem C10_threshold_mean_and_buckets (t uq mq : List Char) (ans : String) (sim : ℚ) :
    (countWords t ≤ 5 → get_threshold_by_length t = 0.75)
    ∧ (6 ≤ countWords t → countWords t ≤ 15 → get_threshold_by_length t = 0.80)
    ∧ (16 ≤ countWords t → countWords t ≤ 1000 → get_threshold_by_length t = 0.85)
    ∧ (1000 < countWords t → get_threshold_by_length t = 0.65)
    ∧ ((0.65 : ℚ) < 0.75 ∧ (0.65 : ℚ) < 0.80 ∧ (0.65 : ℚ) < 0.85)
    ∧ (find_similar_faq uq (some (mq, ans, sim)) = some ans ↔
        -1 ≤ sim ∧ sim ≤ 1
          ∧ (get_threshold_by_length uq + get_threshold_by_length mq) / 2 ≤ sim) := by
  refine ⟨?_, ?_, ?_, ?_, by norm_num, ?_⟩
  · intro h
    simp only [get_threshold_by_length, default_thresholds, lookup_threshold]
    rw [if_pos ⟨Nat.zero_le _, h⟩]
  · intro h6 h15
    simp only [get_threshold_by_length, default_thresholds, lookup_threshold]
    rw [if_neg (by omega), if_pos ⟨h6, h15⟩]
  · intro h16 h1000
    simp only [get_threshold_by_length, default_thresholds, lookup_threshold]
    rw [if_neg (by omega), if_neg (by omega), if_pos ⟨h16, h1000⟩]
  · intro h
    simp only [get_threshold_by_length, default_thresholds, lookup_threshold]
    rw [if_neg (by omega), if_neg (by omega), if_neg (by omega)]
  · by_cases hb : sim < -1 ∨ 1 < sim
    · simp only [find_similar_faq]
      rw [if_pos hb]
      refine iff_of_false (by simp) ?_
      rintro ⟨hx1, hx2, _⟩
      rcases hb with hb | hb
      · linarith
      · linarith
    · have hb' : ¬ (sim < -1 ∨ 1 < sim) := hb
      push_neg at hb
      simp only [find_similar_faq, faqThreshold]
      rw [if_neg hb']
      by_cases ht : (get_threshold_by_length uq + get_threshold_by_length mq) / 2 ≤ sim
      · rw [if_pos ht]
        exact iff_of_true rfl ⟨hb.1, hb.2, ht⟩
      · rw [if_neg ht]
        refine iff_of_false (by simp) ?_
        rintro ⟨_, _, hx⟩
        exact ht hx

theorem countWords_w_replicate : ∀ n : Nat,
    countWords (List.flatten (List.replicate n "w ".toList)) = n := by
  intro n
  induction n with
  | zero => rfl
  | succ m ih =>
    have hrep : List.flatten (List.replicate (m + 1) "w ".toList)
        = 'w' :: ' ' :: List.flatten (List.replicate m "w ".toList) := by
      rw [List.replicate_succ, List.flatten_cons]
      rfl
    have hw : ('w').isWhitespace = false := by decide
    have hsp : (' ').isWhitespace = true := by decide
    rw [hrep]
    simp only [countWords, countWordsAux, hw, hsp] at ih ⊢
    have ih' : countWordsAux false (List.replicate m ['w', ' ']).flatten = m := ih
    simp [ih']
    omega

/-- Witness for C10: one input per bucket, including a 1001-word text that
falls through to 0.65. -/
theorem C10_witness :
    get_threshold_by_length "what time".toList = 0.75
    ∧ get_threshold_by_length "a b c d e f g".toList = 0.80
    ∧ get_threshold_by_length twentyWords = 0.85
    ∧ get_threshold_by_length bigWords = 0.65 :=
  ⟨(C10_threshold_mean_and_buckets "what time".toList [] [] "" 0).1 (by decide),
    (C10_threshold_mean_and_buckets "a b c d e f g".toList [] [] "" 0).2.1
      (by decide) (by decide),
    (C10_threshold_mean_and_buckets twentyWords [] [] "" 0).2.2.1 (by decide) (by decide),
    (C10_threshold_mean_and_buckets bigWords [] [] "" 0).2.2.2.1
      (by have h : countWords bigWords = 1001 := countWords_w_replicate 1001; omega)⟩
